import Mathlib

/-!
A shallow embedding of the `mysh` shell (src/mysh.py) in Lean 4, together
with theorems settling the frozen claims about its specification.

Python strings are modelled as `List Char`.  Machine-level effects (fork,
dup2, close, wait) are modelled as explicit data: the parent's bookkeeping
of an `execute_pipeline` run is a `PipelineResult`, and a pipeline child's
behaviour before it runs its stage is a list of `ChildOp` syscalls.
OS nondeterminism (fork success, directory existence) enters as oracle
parameters.  All definitions are executable so that concrete command lines
can be evaluated inside proofs.
-/

abbrev Str := List Char

/-- '$' (written via its code point to keep source lines free of
stray brace-adjacent literals). -/
def dollarC : Char := Char.ofNat 36

/-- opening curly brace -/
def obC : Char := Char.ofNat 123

/-- closing curly brace -/
def cbC : Char := Char.ofNat 125

/-- backslash -/
def bsC : Char := Char.ofNat 92

/-- single quote -/
def sqC : Char := Char.ofNat 39

/-- double quote -/
def dqC : Char := Char.ofNat 34

/-- Association-list view of `os.environ`. -/
abbrev Env := List (Str × Str)

/-- `os.environ.get(k)` -/
def envGet (e : Env) (k : Str) : Option Str :=
  (e.find? (fun p => p.1 == k)).map (fun p => p.2)

/-- `os.environ[k] = v` -/
def envSet (e : Env) (k v : Str) : Env :=
  if (e.find? (fun p => p.1 == k)).isSome then
    e.map (fun p => if p.1 == k then (k, v) else p)
  else
    e ++ [(k, v)]

/-- Characters Python's `str.strip()` removes (ASCII whitespace). -/
def isPySpace (c : Char) : Bool :=
  c = ' ' || c = Char.ofNat 9 || c = Char.ofNat 10 || c = Char.ofNat 13 ||
  c = Char.ofNat 11 || c = Char.ofNat 12

/-- Python `s.strip()` restricted to ASCII whitespace. -/
def pyStrip (s : Str) : Str :=
  ((s.dropWhile isPySpace).reverse.dropWhile isPySpace).reverse

/-- A character matched by the `\w` class of the source's regexes
(ASCII letters, digits, underscore). -/
def isWordChar (c : Char) : Bool :=
  c.isAlpha || c.isDigit || c = '_'

/-- `is_valid_variable_name` of src/mysh.py lines 93-98: the name must
match the regex anchored pattern: a letter or underscore followed by
word characters. -/
def is_valid_variable_name (nm : Str) : Bool :=
  match nm with
  | [] => false
  | c :: rest => (c.isAlpha || c = '_') && rest.all isWordChar

/-- Splits `s` at the first closing brace: the scanned name is the run of
non-`}` characters; the match requires a closing brace after a nonempty
name, mirroring the regex fragment `([^}]+)}`.  Returns the name and the
text after the closing brace. -/
def takeName (s : Str) : Option (Str × Str) :=
  let nm := s.takeWhile (fun c => c != cbC)
  match s.dropWhile (fun c => c != cbC) with
  | _ :: tail => if nm = [] then none else some (nm, tail)
  | [] => none

/-- Attempts a regex match of `${NAME}` whose `${` sits at the head of
`dollar :: rest`; `rest` is the text after the `$`. -/
def matchAt (rest : Str) : Option (Str × Str) :=
  match rest with
  | c2 :: rest2 => if c2 = obC then takeName rest2 else none
  | [] => none

/-- The successive non-overlapping matches produced by
`re.finditer(r'\$\x7b([^\x7d]+)\x7d', cmd)` as (start index, NAME) pairs.
Fueled structural recursion; one unit of fuel is spent per character
consumed, so `fuel = length + 1` always suffices. -/
def scanAuxF : Nat → Str → Nat → List (Nat × Str)
  | 0, _, _ => []
  | _ + 1, [], _ => []
  | fuel + 1, c :: rest, p =>
    if c = dollarC then
      match matchAt rest with
      | some (nm, tail) => (p, nm) :: scanAuxF fuel tail (p + nm.length + 3)
      | none => scanAuxF fuel rest (p + 1)
    else scanAuxF fuel rest (p + 1)

/-- All `${NAME}` matches of `cmd`, left to right. -/
def scanMatches (cmd : Str) : List (Nat × Str) :=
  scanAuxF (cmd.length + 1) cmd 0

/-- The source's escape test `match.start() > 0 and cmd[match.start()-1] == '\\'`. -/
def matchEscaped (cmd : Str) (start : Nat) : Bool :=
  decide (0 < start) && (cmd.getD (start - 1) ' ' == bsC)

/-- Python slice `cmd[a:b]` (for `0 <= a <= b`). -/
def sliceStr (cmd : Str) (a b : Nat) : Str :=
  (cmd.drop a).take (b - a)

/-- The accumulation loop of `replace_variables` (src/mysh.py lines 72-90):
walks the match list keeping `last_end`; an escaped match drops the
backslash and emits the match text verbatim; a valid name is replaced by
its environment value (empty if unset); an invalid unescaped name aborts
the whole interpolation with no partial result (`none`). -/
def applyMatches (env : Env) (cmd : Str) : List (Nat × Str) → Nat → Option Str
  | [], lastEnd => some (cmd.drop lastEnd)
  | (start, nm) :: ms, lastEnd =>
    if matchEscaped cmd start then
      match applyMatches env cmd ms (start + nm.length + 3) with
      | some restS =>
          some (sliceStr cmd lastEnd (start - 1) ++
                (dollarC :: obC :: (nm ++ [cbC])) ++ restS)
      | none => none
    else if is_valid_variable_name nm then
      match applyMatches env cmd ms (start + nm.length + 3) with
      | some restS =>
          some (sliceStr cmd lastEnd start ++ ((envGet env nm).getD []) ++ restS)
      | none => none
    else none

/-- `replace_variables` of src/mysh.py lines 53-90: returns the rewritten
command and a success flag; on an invalid unescaped variable name it
returns the empty string and `false`. -/
def replace_variables (env : Env) (cmd : Str) : Str × Bool :=
  match applyMatches env cmd (scanMatches cmd) 0 with
  | some r => (r, true)
  | none => ([], false)

/-- Python `s.replace(pat, new)` for nonempty `pat`: replaces
non-overlapping occurrences left to right.  Fueled structural recursion;
each step consumes at least one character, so `fuel = length` suffices
(with exhausted fuel the remaining suffix is returned unchanged, which
never happens on the initial call). -/
def pyReplaceF : Nat → Str → Str → Str → Str
  | 0, s, _, _ => s
  | fuel + 1, s, pat, new =>
    match s with
    | [] => []
    | c :: rest =>
      if pat ≠ [] ∧ pat.isPrefixOf (c :: rest) then
        new ++ pyReplaceF fuel ((c :: rest).drop pat.length) pat new
      else
        c :: pyReplaceF fuel rest pat new

/-- Python `s.replace(pat, new)` (nonempty `pat`). -/
def pyReplace (s pat new : Str) : Str :=
  pyReplaceF s.length s pat new

/-- Whether `pat` occurs as a contiguous substring of `s`. -/
def containsSub (pat : Str) : Str → Bool
  | [] => pat.isPrefixOf []
  | c :: rest => pat.isPrefixOf (c :: rest) || containsSub pat rest

/-- The single-quote placeholder of `preprocess_command`. -/
def sqPlaceholder : Str := "__SINGLE_QUOTE__".data

/-- The double-quote placeholder of `preprocess_command`. -/
def dqPlaceholder : Str := "__DOUBLE_QUOTE__".data

/-- `preprocess_command` of src/mysh.py lines 335-341: textual replacement
of backslash-quote pairs by placeholder words. -/
def preprocess_command (cmd : Str) : Str :=
  pyReplace (pyReplace cmd [bsC, sqC] sqPlaceholder) [bsC, dqC] dqPlaceholder

/-- The per-word body of `postprocess_args` (src/mysh.py lines 344-348). -/
def postprocess_word (a : Str) : Str :=
  pyReplace (pyReplace a sqPlaceholder [sqC]) dqPlaceholder [dqC]

/-- Errors raised by `shlex` tokenization (`ValueError` messages). -/
inductive ShlexErr where
  | noClosingQuote
  | noEscapedChar
deriving DecidableEq, Repr

/-- Lexer states of `shlex.read_token` in posix mode with
`whitespace_split = True`: whitespace, plain word accumulation, inside
single or double quotes, and the escape state entered from word context
(`escapedstate = 'a'`) or from inside double quotes. -/
inductive LexSt where
  | ws
  | word
  | sq
  | dq
  | escW
  | escD
deriving DecidableEq, Repr

/-- `' \t\r\n'`, the `whitespace` attribute of `shlex`. -/
def shWhitespace : List Char := [' ', Char.ofNat 9, Char.ofNat 13, Char.ofNat 10]

/-- `self.instream.readline()`: consume the rest of the current line,
including the newline when present. -/
def dropCommentLine (s : Str) : Str :=
  (s.dropWhile (fun c => c != Char.ofNat 10)).drop 1

/-- The `read_token` loop of CPython's `shlex` specialised to
`posix=True`, `whitespace_split=True`, `punctuation_chars=''`,
`quotes='\x27\x22'`, `escape = backslash`, `escapedquotes = double quote`,
iterated until end of input (the `list(lexer)` call).  `cs` is the
`commenters` attribute.  Arguments: fuel, remaining input, state,
current token, `quoted` flag.  Each step consumes one input character
(comment skipping consumes more), so `fuel = length + 1` suffices. -/
def lexF (cs : List Char) : Nat → Str → LexSt → Str → Bool → Except ShlexErr (List Str)
  | 0, _, _, _, _ => Except.ok []
  | _ + 1, [], st, tok, quoted =>
    match st with
    | LexSt.ws => if tok ≠ [] || quoted then Except.ok [tok] else Except.ok []
    | LexSt.word => if tok ≠ [] || quoted then Except.ok [tok] else Except.ok []
    | LexSt.sq => Except.error ShlexErr.noClosingQuote
    | LexSt.dq => Except.error ShlexErr.noClosingQuote
    | LexSt.escW => Except.error ShlexErr.noEscapedChar
    | LexSt.escD => Except.error ShlexErr.noEscapedChar
  | fuel + 1, c :: rest, st, tok, quoted =>
    match st with
    | LexSt.ws =>
      if c ∈ shWhitespace then lexF cs fuel rest LexSt.ws tok quoted
      else if c ∈ cs then lexF cs fuel (dropCommentLine rest) LexSt.ws tok quoted
      else if c = bsC then lexF cs fuel rest LexSt.escW tok quoted
      else if c = sqC then lexF cs fuel rest LexSt.sq tok true
      else if c = dqC then lexF cs fuel rest LexSt.dq tok true
      else lexF cs fuel rest LexSt.word (tok ++ [c]) quoted
    | LexSt.word =>
      if c ∈ shWhitespace then
        if tok ≠ [] || quoted then
          (lexF cs fuel rest LexSt.ws [] false).map (fun ts => tok :: ts)
        else lexF cs fuel rest LexSt.ws tok quoted
      else if c ∈ cs then
        if tok ≠ [] || quoted then
          (lexF cs fuel (dropCommentLine rest) LexSt.ws [] false).map (fun ts => tok :: ts)
        else lexF cs fuel (dropCommentLine rest) LexSt.ws tok quoted
      else if c = sqC then lexF cs fuel rest LexSt.sq tok true
      else if c = dqC then lexF cs fuel rest LexSt.dq tok true
      else if c = bsC then lexF cs fuel rest LexSt.escW tok quoted
      else lexF cs fuel rest LexSt.word (tok ++ [c]) quoted
    | LexSt.sq =>
      if c = sqC then lexF cs fuel rest LexSt.word tok quoted
      else lexF cs fuel rest LexSt.sq (tok ++ [c]) quoted
    | LexSt.dq =>
      if c = dqC then lexF cs fuel rest LexSt.word tok quoted
      else if c = bsC then lexF cs fuel rest LexSt.escD tok quoted
      else lexF cs fuel rest LexSt.dq (tok ++ [c]) quoted
    | LexSt.escW => lexF cs fuel rest LexSt.word (tok ++ [c]) quoted
    | LexSt.escD =>
      if c = bsC || c = dqC then lexF cs fuel rest LexSt.dq (tok ++ [c]) quoted
      else lexF cs fuel rest LexSt.dq (tok ++ [bsC, c]) quoted

/-- `shlex.split(cmd)` as called in `execute_pipeline` (src/mysh.py line
303): posix mode, whitespace split, comments disabled. -/
def shlexSplitPlain (s : Str) : Except ShlexErr (List Str) :=
  lexF [] (s.length + 1) s LexSt.ws [] false

/-- The lexer configured by `custom_split_command` (src/mysh.py lines
358-362): same settings but with the default commenters `'#'`. -/
def shlexCustom (s : Str) : Except ShlexErr (List Str) :=
  lexF ['#'] (s.length + 1) s LexSt.ws [] false

/-- `custom_split_command` of src/mysh.py lines 351-376: preprocess the
escaped quotes into placeholders, shlex-split, postprocess placeholders
back into quote characters; a `ValueError` from the lexer yields
`([], False)`. -/
def custom_split_command (cmd : Str) : List Str × Bool :=
  match shlexCustom (preprocess_command cmd) with
  | Except.ok args => (args.map postprocess_word, true)
  | Except.error _ => ([], false)

/-- Modelled from the spec: `split_by_pipe_op` lives in the repository's
`parsing` module, which is not under src/.  Spec section 4.3: split the raw
line at top-level pipe characters, where pipe characters inside single or
double quotes are not separators.  State: the currently open quote (if
any), the current stage accumulator, the finished stages. -/
def splitPipeAux : Str → Option Char → Str → List Str → List Str
  | [], _, cur, segs => segs ++ [cur]
  | c :: rest, some q, cur, segs =>
    if c = q then splitPipeAux rest none (cur ++ [c]) segs
    else splitPipeAux rest (some q) (cur ++ [c]) segs
  | c :: rest, none, cur, segs =>
    if c = '|' then splitPipeAux rest none [] (segs ++ [cur])
    else if c = sqC || c = dqC then splitPipeAux rest (some c) (cur ++ [c]) segs
    else splitPipeAux rest none (cur ++ [c]) segs

/-- Modelled from the spec: the Pipe Segmenter interface consumed by
`run_command` (src/mysh.py line 382). -/
def split_by_pipe_op (cmd : Str) : List Str :=
  splitPipeAux cmd none [] []

/-- Python exceptions that can escape the pieces of the core modelled
here.  `run_shell` (src/mysh.py lines 413-434) catches only `EOFError` and
`KeyboardInterrupt`, so any of these terminates the interpreter process:
`valueError` from `shlex.split`, `systemExit` from `sys.exit`, `keyError`
from an `os.environ[...]` lookup of a missing key. -/
inductive PyExn where
  | valueError
  | systemExit (code : Int)
  | keyError
deriving DecidableEq, Repr

/-- Parent-side bookkeeping of one `execute_pipeline` call (src/mysh.py
lines 289-332): which stage indices were forked as children, which were
waited for (`os.waitpid`), and the exception, if any, that escaped the
call before the wait loop ran. -/
structure PipelineResult where
  forked : List Nat
  waited : List Nat
  exn : Option PyExn
deriving DecidableEq, Repr

/-- The stage loop of `execute_pipeline` followed by its cleanup and wait
loops.  For stage `i` the parent first runs `shlex.split` on the stage
string (line 303) - an unterminated quote raises `ValueError` there,
escaping the function with no wait performed - then forks; a failed fork
(oracle `forkOk i = false`) prints an error and breaks, after which the
parent closes the pipes and waits once for every child forked so far. -/
def pipeLoop (forkOk : Nat → Bool) : List Str → Nat → List Nat → PipelineResult
  | [], _, pids => { forked := pids, waited := pids, exn := none }
  | cmd :: rest, i, pids =>
    match shlexSplitPlain cmd with
    | Except.error _ => { forked := pids, waited := [], exn := some PyExn.valueError }
    | Except.ok _ =>
      if forkOk i then pipeLoop forkOk rest (i + 1) (pids ++ [i])
      else { forked := pids, waited := pids, exn := none }

/-- `execute_pipeline` of src/mysh.py lines 289-332, parent view. -/
def execute_pipeline (forkOk : Nat → Bool) (commands : List Str) : PipelineResult :=
  pipeLoop forkOk commands 0 []

/-- Observable actions of a pipeline child between `fork` and the end of
its branch (src/mysh.py lines 306-312): rebind stdio via `dup2`, close a
descriptor, invoke `execute_external_command` on the stage's argument
vector (which resolves the executable and forks/execs it), or dispatch to
a built-in handler.  The source's child branch never emits `closeFd` or
`callBuiltin`; both constructors exist so that the claims about them are
statable. -/
inductive ChildOp where
  | dup2 (src dst : Nat)
  | closeFd (fd : Nat)
  | callExternal (args : List Str)
  | callBuiltin (name : Str) (args : List Str)
  | exitZero
deriving DecidableEq, Repr

/-- The child branch of `execute_pipeline` for stage `i` of `n`, given the
descriptor pairs `pfds` of the `n-1` pipes (read end, write end): `dup2`
stdin from pipe `i-1`'s read end when `i > 0`, `dup2` stdout to pipe `i`'s
write end when `i < n-1`, then call `execute_external_command` on the
pre-tokenized argument vector and `sys.exit(0)`.  No descriptor is closed
and no built-in dispatch occurs in the source. -/
def pipelineChild (pfds : List (Nat × Nat)) (n i : Nat) (args : List Str) : List ChildOp :=
  (if 0 < i then [ChildOp.dup2 (pfds.getD (i - 1) (0, 0)).1 0] else []) ++
  (if i < n - 1 then [ChildOp.dup2 (pfds.getD i (0, 0)).2 1] else []) ++
  [ChildOp.callExternal args, ChildOp.exitZero]

/-- All descriptors belonging to the pipes of a pipeline. -/
def allPipeFds (pfds : List (Nat × Nat)) : List Nat :=
  pfds.foldr (fun p acc => p.1 :: p.2 :: acc) []

/-- The descriptors stage `i`'s two rebindings involve. -/
def involvedFds (pfds : List (Nat × Nat)) (n i : Nat) : List Nat :=
  (if 0 < i then [(pfds.getD (i - 1) (0, 0)).1] else []) ++
  (if i < n - 1 then [(pfds.getD i (0, 0)).2] else [])

/-- The descriptors a child closes before running its stage. -/
def childClosedFds (pfds : List (Nat × Nat)) (n i : Nat) (args : List Str) : List Nat :=
  (pipelineChild pfds n i args).filterMap fun op =>
    match op with
    | ChildOp.closeFd fd => some fd
    | _ => none

/-- The five names of `command_map` (src/mysh.py lines 399-405). -/
def builtinNames : List Str :=
  ["var".data, "pwd".data, "cd".data, "which".data, "exit".data]

/-- A stage string is rejected when it strips to the empty string
(src/mysh.py lines 383-386). -/
def stageEmpty (c : Str) : Bool :=
  pyStrip c == []

/-- Result of `run_command` (src/mysh.py lines 379-410) for one input
line, as observed by the interpreter process. -/
inductive RunResult where
  | emptyStageErr
  | pipeline (r : PipelineResult)
  | interpErr
  | tokenErr
  | noArgs
  | builtin (name : Str) (args : List Str)
  | external (args : List Str)
deriving DecidableEq, Repr

/-- `run_command` of src/mysh.py lines 379-410: a line containing a pipe
character is segmented and all stages are checked for emptiness before
`execute_pipeline` runs; otherwise the line is interpolated, tokenized,
and dispatched on `args[0]` through `command_map`, falling back to
`execute_external_command`. -/
def run_command (env : Env) (forkOk : Nat → Bool) (cmd : Str) : RunResult :=
  if cmd.contains '|' then
    let commands := split_by_pipe_op cmd
    if commands.any stageEmpty then RunResult.emptyStageErr
    else RunResult.pipeline (execute_pipeline forkOk commands)
  else
    match replace_variables env cmd with
    | (cmd2, ok) =>
      if ok then
        match custom_split_command cmd2 with
        | (args, ok2) =>
          if ok2 then
            match args with
            | [] => RunResult.noArgs
            | a0 :: _ =>
              if builtinNames.contains a0 then RunResult.builtin a0 args
              else RunResult.external args
          else RunResult.tokenErr
      else RunResult.interpErr

/-- The children spawned by the pipeline orchestrator during a
`run_command` call. -/
def pipelineForked : RunResult → List Nat
  | RunResult.pipeline r => r.forked
  | _ => []

/-- Python `int(s)` on a string: optional surrounding ASCII whitespace, an
optional sign, then base-10 digits in which single underscores may appear
between digits.  Value parser for the digit/underscore body. -/
def pyDigitsAux : Nat → Str → Option Nat
  | acc, [] => some acc
  | acc, '_' :: d :: rest =>
    if d.isDigit then pyDigitsAux (acc * 10 + (d.toNat - 48)) rest else none
  | _, ['_'] => none
  | acc, d :: rest =>
    if d.isDigit then pyDigitsAux (acc * 10 + (d.toNat - 48)) rest else none

/-- The digit body of a Python base-10 integer literal: nonempty, starts
with a digit. -/
def pyIntBody (s : Str) : Option Nat :=
  match s with
  | [] => none
  | d :: rest => if d.isDigit then pyDigitsAux (d.toNat - 48) rest else none

/-- Python `int(s)` for base 10 (ASCII digits; the unicode-digit and
unicode-space cases cannot arrive from this shell's input). -/
def pyInt (s : Str) : Option Int :=
  let t := ((s.dropWhile isPySpace).reverse.dropWhile isPySpace).reverse
  match t with
  | '+' :: rest => (pyIntBody rest).map Int.ofNat
  | '-' :: rest => (pyIntBody rest).map (fun n => -(Int.ofNat n))
  | rest => (pyIntBody rest).map Int.ofNat

/-- Outcome of the exit built-in: either the interpreter keeps running
(usage error printed) or `sys.exit` is reached with the given code. -/
inductive ExitRes where
  | noExit
  | exit (code : Int)
deriving DecidableEq, Repr

/-- `handle_exit_command` of src/mysh.py lines 203-218. -/
def handle_exit_command (args : List Str) : ExitRes :=
  if 2 < args.length then ExitRes.noExit
  else
    match args.get? 1 with
    | some a =>
      match pyInt a with
      | some n => ExitRes.exit n
      | none => ExitRes.noExit
    | none => ExitRes.exit 0

/-- posixpath.join for two components: `b` if absolute, else `a` and `b`
joined with a slash unless `a` is empty or already ends in one. -/
def osPathJoin (a b : Str) : Str :=
  if b.headD ' ' = '/' then b
  else if a = [] then b
  else if a.getLast? = some '/' then a ++ b
  else a ++ '/' :: b

/-- The component-normalisation loop of `posixpath.normpath`: empty and
`.` components are dropped; `..` is appended when the path is relative and
the stack is empty or already ends in `..`, popped otherwise when the
stack is nonempty, and dropped at an absolute root. -/
def normComps (isAbs : Bool) : List Str → List Str → List Str
  | stack, [] => stack
  | stack, c :: cs =>
    if c = [] || c = ['.'] then normComps isAbs stack cs
    else if c = "..".data then
      if (!isAbs && stack = []) || stack.getLast? = some "..".data then
        normComps isAbs (stack ++ [c]) cs
      else if stack ≠ [] then normComps isAbs stack.dropLast cs
      else normComps isAbs stack cs
    else normComps isAbs (stack ++ [c]) cs

/-- `posixpath.normpath` (single initial slash; the double-slash special
case of POSIX cannot arise from the call sites modelled here). -/
def normpath (p : Str) : Str :=
  if p = [] then ['.']
  else
    let isAbs := p.headD ' ' = '/'
    let comps := normComps isAbs [] (p.splitOn '/')
    let joined := (if isAbs then ['/'] else []) ++ List.intercalate ['/'] comps
    if joined = [] then ['.'] else joined

/-- `posixpath.abspath`: normalize, prepending the OS current directory
when the path is relative. -/
def os_path_abspath (oscwd p : Str) : Str :=
  if p.headD ' ' = '/' then normpath p else normpath (osPathJoin oscwd p)

/-- `os.path.expanduser` for the argument forms this shell passes it: a
path starting with a tilde has the tilde replaced by the home directory;
anything else is returned unchanged.  (The `~user` and missing-`HOME`
pw-database forms are not exercised by any claim.) -/
def expanduserModel (home : Str) (s : Str) : Str :=
  match s with
  | [] => []
  | c :: rest => if c = '~' then home ++ rest else c :: rest

/-- The interpreter-process state the built-ins mutate: the module-global
`logical_pwd` and the environment map. -/
structure ShellSt where
  logicalPwd : Str
  env : Env
deriving DecidableEq, Repr

/-- `handle_cd_command` of src/mysh.py lines 134-158.  `fs` is the OS
oracle telling whether `os.chdir` succeeds on a path (a failure is caught
and leaves the state unchanged).  `oscwd` is the OS current directory used
by `os.path.abspath` for relative inputs.  Returns `none` when the
uncaught `KeyError` from `os.environ['HOME']` escapes (no-argument `cd`
with `HOME` unset); otherwise the resulting state.  On success the source
assigns `logical_pwd` and `os.environ['PWD']` - and nothing else: `OLDPWD`
is read (line 146) but never written. -/
def handle_cd_command (fs : Str → Bool) (oscwd : Str) (args : List Str)
    (s : ShellSt) : Option ShellSt :=
  if 2 < args.length then some s
  else
    let path0? : Option Str :=
      match args.get? 1 with
      | some a => some (expanduserModel ((envGet s.env "HOME".data).getD []) a)
      | none => envGet s.env "HOME".data
    match path0? with
    | none => none
    | some p0 =>
      let p1 := if p0 = ['-'] then (envGet s.env "OLDPWD".data).getD s.logicalPwd else p0
      let newPwd := os_path_abspath oscwd (osPathJoin s.logicalPwd p1)
      if fs newPwd then
        some { logicalPwd := newPwd, env := envSet s.env "PWD".data newPwd }
      else some s

/-- What becomes of the interpreter process after `run_shell` feeds one
line to `run_command`: the read-eval loop continues, or `sys.exit`
terminates it with a code, or an uncaught exception (not `EOFError` or
`KeyboardInterrupt`, the only ones `run_shell` catches) kills it. -/
inductive LineFate where
  | continues
  | exits (code : Int)
  | crashes (e : PyExn)
deriving DecidableEq, Repr

/-- One iteration of the read-eval loop on line `cmd`: dispatch through
`run_command` and map each outcome to the fate of the interpreter
process.  `var`, `pwd`, `which` and external commands only print or
mutate the environment; `exit` may call `sys.exit`; `cd` may raise
`KeyError`; a pipeline propagates any exception `execute_pipeline`
raised. -/
def lineFate (fs : Str → Bool) (oscwd : Str) (forkOk : Nat → Bool)
    (st : ShellSt) (cmd : Str) : LineFate :=
  match run_command st.env forkOk cmd with
  | RunResult.pipeline r =>
    match r.exn with
    | some e => LineFate.crashes e
    | none => LineFate.continues
  | RunResult.builtin nm args =>
    if nm = "exit".data then
      match handle_exit_command args with
      | ExitRes.exit n => LineFate.exits n
      | ExitRes.noExit => LineFate.continues
    else if nm = "cd".data then
      match handle_cd_command fs oscwd args st with
      | none => LineFate.crashes PyExn.keyError
      | some _ => LineFate.continues
    else LineFate.continues
  | _ => LineFate.continues

/-- `ls | echo "abc` : a pipeline whose second stage has an unterminated
double quote. -/
def cmdUnterm : Str := "ls | echo ".data ++ [dqC] ++ "abc".data

/-- Directory-existence oracle for the `cd` scenarios: `/tmp`, `/` and
`/start` exist. -/
def fsCd : Str → Bool := fun s =>
  s == "/tmp".data || s == "/".data || s == "/start".data

/-- Initial interpreter state for the `cd` scenarios: fresh shell started
in `/start`, `HOME` set, `OLDPWD` and `PWD` not yet set. -/
def stStart : ShellSt :=
  { logicalPwd := "/start".data, env := [("HOME".data, "/root".data)] }

/-- The fork oracle under which every `os.fork` succeeds. -/
def allForksOk : Nat → Bool := fun _ => true

/-- The claim hypothesis of C7, read literally: the input contains a
substring `${NAME}` with nonempty brace-free `NAME`, the character before
the `$` (if any) is not a backslash, and `NAME` fails the name regex. -/
def unescapedInvalidOccurrence (s : Str) : Prop :=
  ∃ pre nm post, s = pre ++ dollarC :: obC :: (nm ++ cbC :: post) ∧
    nm ≠ [] ∧ cbC ∉ nm ∧
    (pre = [] ∨ pre.getLast? ≠ some bsC) ∧
    is_valid_variable_name nm = false

/-- `\${x${1B}` : its scan-selected match is the escaped `${x${1B}`, while
the inner occurrence `${1B}` (unescaped, invalid name) is never examined. -/
def cmdC7a : Str := [bsC, dollarC, obC, 'x', dollarC, obC, '1', 'B', cbC]

/-- `echo ${1BAD} | wc` : a pipe-containing line with an invalid variable
reference; the pipeline path never runs the interpolator. -/
def cmdC7b : Str :=
  "echo ".data ++ [dollarC, obC] ++ "1BAD".data ++ [cbC] ++ " | wc".data

/-- `echo ${1BAD}` without a pipe, for the amended-claim witness. -/
def cmdC7w : Str := "echo ".data ++ [dollarC, obC] ++ "1BAD".data ++ [cbC]

/-- Environment for the C8 witness: `X` holds the literal text `${Y}` and
`Y` is also set, so re-expansion would be observable. -/
def envC8 : Env :=
  [("X".data, [dollarC, obC] ++ "Y".data ++ [cbC]), ("Y".data, "zz".data)]

/-- `echo __SINGLE_QUOTE__` typed literally by the user (no backslash). -/
def cmdC10 : Str := "echo __SINGLE_QUOTE__".data

/-- C1 (code bug).  In the two-stage pipeline with pipe descriptors
`(3, 4)`, stage 0's child performs only the stdout rebinding and the stage
call - it closes nothing, in particular not the unneeded read end 3 - and
stage 1's child likewise never closes the unneeded write end 4.  The
claim requires every uninvolved pipe descriptor to be closed before the
stage runs; the source's child branch (src/mysh.py lines 306-312) contains
no close call at all. -/
theorem c1_pipeline_child_closes_nothing :
    pipelineChild [(3, 4)] 2 0 ["ls".data] =
      [ChildOp.dup2 4 1, ChildOp.callExternal ["ls".data], ChildOp.exitZero] ∧
    pipelineChild [(3, 4)] 2 1 ["wc".data] =
      [ChildOp.dup2 3 0, ChildOp.callExternal ["wc".data], ChildOp.exitZero] ∧
    (3 ∈ allPipeFds [(3, 4)] ∧ 3 ∉ involvedFds [(3, 4)] 2 0 ∧
      3 ∉ childClosedFds [(3, 4)] 2 0 ["ls".data]) ∧
    (4 ∈ allPipeFds [(3, 4)] ∧ 4 ∉ involvedFds [(3, 4)] 2 1 ∧
      4 ∉ childClosedFds [(3, 4)] 2 1 ["wc".data]) := by
  refine ⟨by decide, by decide, ⟨by decide, by decide, by decide⟩,
    ⟨by decide, by decide, by decide⟩⟩

/-- C2 (code bug).  Feeding the line `ls | echo "abc` to the read-eval
loop kills the interpreter: `execute_pipeline` runs `shlex.split` on the
second stage before forking it, the unterminated quote raises
`ValueError`, and `run_shell` catches only `EOFError` and
`KeyboardInterrupt`, so the exception terminates the process even though
the line never invoked `exit`. -/
theorem c2_unterminated_quote_in_pipeline_crashes_shell :
    lineFate fsCd "/start".data allForksOk stStart cmdUnterm =
      LineFate.crashes PyExn.valueError := by decide

/-- C3 (code bug).  Starting from a fresh shell in `/start`, the sequence
`cd /tmp`, `cd /`, `cd -` leaves the Logical Working Directory at `/`,
not `/tmp`: `handle_cd_command` writes `PWD` but never writes `OLDPWD`
(after the first `cd` it is still unset), so `cd -` falls back to the
current directory. -/
theorem c3_cd_dash_returns_wrong_directory :
    ((handle_cd_command fsCd "/start".data ["cd".data, "/tmp".data] stStart).bind
      fun s1 => (handle_cd_command fsCd "/start".data ["cd".data, "/".data] s1).bind
        fun s2 => handle_cd_command fsCd "/start".data ["cd".data, ['-']] s2).map
          ShellSt.logicalPwd = some "/".data ∧
    (handle_cd_command fsCd "/start".data ["cd".data, "/tmp".data] stStart).map
      (fun s1 => envGet s1.env "OLDPWD".data) = some none ∧
    "/".data ≠ "/tmp".data := by
  refine ⟨by decide, by decide, by decide⟩

/-- C5 (code bug).  On the pipeline `ls | echo "abc` (all forks
succeeding), the parent forks stage 0 and then aborts with the
`ValueError` raised by `shlex.split` on stage 1 before the wait loop, so
the forked child is never waited for - contradicting the requirement that
every forked child be reaped exactly once regardless of stage failures. -/
theorem c5_forked_child_not_reaped_on_tokenize_error :
    execute_pipeline allForksOk (split_by_pipe_op cmdUnterm) =
      { forked := [0], waited := [], exn := some PyExn.valueError } ∧
    split_by_pipe_op cmdUnterm =
      ["ls ".data, " echo ".data ++ [dqC] ++ "abc".data] := by
  refine ⟨by decide, by decide⟩

/-- C6 (confirmed).  For any line containing a pipe character, if some
stage produced by the Pipe Segmenter strips to the empty string,
`run_command` reports the empty-stage syntax error: the check runs over
all stages before `execute_pipeline` is ever invoked, so no pipeline
child is forked. -/
theorem c6_empty_stage_rejected_before_spawn (env : Env) (forkOk : Nat → Bool)
    (cmd : Str) (hp : cmd.contains '|' = true)
    (he : (split_by_pipe_op cmd).any stageEmpty = true) :
    run_command env forkOk cmd = RunResult.emptyStageErr ∧
    pipelineForked (run_command env forkOk cmd) = [] := by
  have hp' : '|' ∈ cmd := by simpa using hp
  simp [run_command, hp', he, pipelineForked]

/-- Witness for C6 at the line `echo hi | | wc -l`. -/
theorem c6_witness :
    ("echo hi | | wc -l".data.contains '|' = true) ∧
    ((split_by_pipe_op "echo hi | | wc -l".data).any stageEmpty = true) ∧
    run_command [] allForksOk "echo hi | | wc -l".data = RunResult.emptyStageErr :=
  ⟨by decide, by decide,
    (c6_empty_stage_rejected_before_spawn [] allForksOk "echo hi | | wc -l".data
      (by decide) (by decide)).1⟩

/-- C9 (confirmed).  Bare `exit` reaches `sys.exit(0)`; `exit a` reaches
`sys.exit(n)` exactly when Python's base-10 `int(a)` parses to `n` and
otherwise reports a usage error without exiting; more than one argument
reports an error without exiting. -/
theorem c9_exit_semantics :
    handle_exit_command ["exit".data] = ExitRes.exit 0 ∧
    (∀ a n, pyInt a = some n →
      handle_exit_command ["exit".data, a] = ExitRes.exit n) ∧
    (∀ a, pyInt a = none →
      handle_exit_command ["exit".data, a] = ExitRes.noExit) ∧
    (∀ a b rest, handle_exit_command ("exit".data :: a :: b :: rest) = ExitRes.noExit) := by
  refine ⟨by decide, ?_, ?_, ?_⟩
  · intro a n h
    simp [handle_exit_command, h]
  · intro a h
    simp [handle_exit_command, h]
  · intro a b rest
    simp only [handle_exit_command, List.length_cons]
    rw [if_pos (by omega)]

/-- Witness for C9: `exit 7` terminates with code 7. -/
theorem c9_witness :
    pyInt "7".data = some 7 ∧
    handle_exit_command ["exit".data, "7".data] = ExitRes.exit 7 :=
  ⟨by decide, c9_exit_semantics.2.1 "7".data 7 (by decide)⟩

/-- C4 counterexample.  For the single (non-pipelined) command `pwd`,
`run_command` dispatches to the `pwd` built-in handler; but the pipeline
child for the stage whose argument vector is `["pwd"]` performs no
built-in dispatch at all - its stage call is `execute_external_command`,
so the claim that a stage whose first word names a built-in is dispatched
to the built-in handler fails at this input. -/
theorem c4_builtin_stage_not_dispatched_to_builtin :
    run_command [] allForksOk "pwd".data =
      RunResult.builtin "pwd".data ["pwd".data] ∧
    builtinNames.contains "pwd".data = true ∧
    pipelineChild [(3, 4)] 2 0 ["pwd".data] =
      [ChildOp.dup2 4 1, ChildOp.callExternal ["pwd".data], ChildOp.exitZero] ∧
    ¬ ∃ nm as, ChildOp.callBuiltin nm as ∈ pipelineChild [(3, 4)] 2 0 ["pwd".data] := by
  refine ⟨by decide, by decide, by decide, ?_⟩
  rintro ⟨nm, as, h⟩
  simp [pipelineChild] at h

/-- C4 amended: every pipeline stage child invokes the Process Launcher
(`execute_external_command`) on the stage's argument vector,
unconditionally - there is no built-in dispatch on the pipeline path,
whatever the first word is. -/
theorem c4_pipeline_child_always_launcher (pfds : List (Nat × Nat)) (n i : Nat)
    (args : List Str) :
    ChildOp.callExternal args ∈ pipelineChild pfds n i args ∧
    ∀ nm as, ChildOp.callBuiltin nm as ∉ pipelineChild pfds n i args := by
  by_cases h1 : 0 < i <;> by_cases h2 : i < n - 1 <;>
    simp [pipelineChild, h1, h2]

/-- If the match list contains an unescaped match with an invalid name,
the accumulation loop of `replace_variables` aborts with no partial
result. -/
theorem applyMatches_none_of_bad (env : Env) (cmd : Str) (ms : List (Nat × Str))
    (lastEnd : Nat)
    (h : ∃ m ∈ ms, matchEscaped cmd m.1 = false ∧ is_valid_variable_name m.2 = false) :
    applyMatches env cmd ms lastEnd = none := by
  induction ms generalizing lastEnd with
  | nil => rcases h with ⟨m, hm, -⟩; cases hm
  | cons hd tl ih =>
    obtain ⟨start, nm⟩ := hd
    rcases h with ⟨m, hm, hesc, hval⟩
    rcases List.mem_cons.mp hm with rfl | hmem
    · simp only [applyMatches]
      rw [if_neg (by simp [hesc]), if_neg (by simp [hval])]
    · have hrec := ih (start + nm.length + 3) ⟨m, hmem, hesc, hval⟩
      simp only [applyMatches, hrec]
      split <;> try split
      all_goals rfl

/-- C7 amended: restricted to the matches actually selected by the single
left-to-right scan, and to lines without a pipe character (the pipeline
path never interpolates), the claim holds: an unescaped scan-selected
match with an invalid name makes interpolation fail with no partial
result and `run_command` abandons the cycle before tokenization or
dispatch. -/
theorem c7_scan_selected_invalid_aborts (env : Env) (forkOk : Nat → Bool)
    (cmd : Str) (hp : cmd.contains '|' = false)
    (hbad : ∃ m ∈ scanMatches cmd, matchEscaped cmd m.1 = false ∧
      is_valid_variable_name m.2 = false) :
    replace_variables env cmd = ([], false) ∧
    run_command env forkOk cmd = RunResult.interpErr := by
  have h1 : replace_variables env cmd = ([], false) := by
    unfold replace_variables
    rw [applyMatches_none_of_bad env cmd _ _ hbad]
  have hp' : ¬ ('|' ∈ cmd) := by simpa using hp
  refine ⟨h1, ?_⟩
  simp [run_command, hp', h1]

/-- C7 counterexample.  Two inputs on which the claim, read literally,
fails.  `\${x${1B}` contains the unescaped occurrence `${1B}` with the
invalid name `1B`, yet interpolation succeeds (the scanner's one
leftmost-first pass selects the enclosing escaped match `${x${1B}` and
never examines the inner occurrence).  `echo ${1BAD} | wc` contains the
unescaped invalid occurrence `${1BAD}`, yet the command cycle is not
abandoned: the pipe makes `run_command` take the pipeline path, which
never calls the interpolator, and both stages are tokenized and forked. -/
theorem c7_counterexample :
    unescapedInvalidOccurrence cmdC7a ∧
    replace_variables [] cmdC7a =
      ([dollarC, obC, 'x', dollarC, obC, '1', 'B', cbC], true) ∧
    unescapedInvalidOccurrence cmdC7b ∧
    run_command [] allForksOk cmdC7b =
      RunResult.pipeline { forked := [0, 1], waited := [0, 1], exn := none } := by
  refine ⟨⟨[bsC, dollarC, obC, 'x'], ['1', 'B'], [], by decide, by decide, by decide,
      Or.inr (by decide), by decide⟩,
    by decide,
    ⟨"echo ".data, "1BAD".data, " | wc".data, by decide, by decide, by decide,
      Or.inr (by decide), by decide⟩,
    by decide⟩

/-- Witness for the amended C7 at the pipe-free line `echo ${1BAD}`. -/
theorem c7_witness :
    (cmdC7w.contains '|' = false) ∧
    (∃ m ∈ scanMatches cmdC7w, matchEscaped cmdC7w m.1 = false ∧
      is_valid_variable_name m.2 = false) ∧
    replace_variables [] cmdC7w = ([], false) ∧
    run_command [] allForksOk cmdC7w = RunResult.interpErr := by
  refine ⟨by decide, by decide, ?_⟩
  have h := c7_scan_selected_invalid_aborts [] allForksOk cmdC7w (by decide) (by decide)
  exact ⟨h.1, h.2⟩

/-- `takeWhile` walks through a block all of whose elements satisfy the
predicate. -/
theorem takeWhile_append_all (p : Char → Bool) (l r : Str)
    (h : ∀ c ∈ l, p c = true) :
    (l ++ r).takeWhile p = l ++ r.takeWhile p := by
  induction l with
  | nil => simp
  | cons c cs ih =>
    simp only [List.cons_append, List.takeWhile_cons]
    rw [h c (by simp)]
    simp [ih fun x hx => h x (by simp [hx])]

/-- `dropWhile` skips a block all of whose elements satisfy the
predicate. -/
theorem dropWhile_append_all (p : Char → Bool) (l r : Str)
    (h : ∀ c ∈ l, p c = true) :
    (l ++ r).dropWhile p = r.dropWhile p := by
  induction l with
  | nil => simp
  | cons c cs ih =>
    simp only [List.cons_append, List.dropWhile_cons]
    rw [h c (by simp)]
    simp [ih fun x hx => h x (by simp [hx])]

/-- No character of a valid variable name is the closing brace. -/
theorem validName_no_brace (nm : Str) (h : is_valid_variable_name nm = true) :
    ∀ c ∈ nm, (c != cbC) = true := by
  match nm with
  | [] => simp [is_valid_variable_name] at h
  | c :: rest =>
    simp only [is_valid_variable_name, Bool.and_eq_true, Bool.or_eq_true,
      List.all_eq_true] at h
    intro x hx
    rcases List.mem_cons.mp hx with rfl | hxm
    · simp only [bne_iff_ne, ne_eq]
      intro he
      subst he
      rcases h.1 with ha | ha <;> revert ha <;> decide
    · have hw := h.2 x hxm
      simp only [bne_iff_ne, ne_eq]
      intro he
      subst he
      revert hw
      decide

/-- The scanner on the empty string. -/
theorem scanAuxF_nil (f p : Nat) : scanAuxF f [] p = [] := by
  cases f <;> rfl

/-- On the exact string `${nm}` with a valid name `nm`, the scan selects
the single match `(p, nm)`. -/
theorem scan_of_validName (nm : Str) (h : is_valid_variable_name nm = true)
    (f p : Nat) :
    scanAuxF (f + 1) (dollarC :: obC :: (nm ++ [cbC])) p = [(p, nm)] := by
  have hnb := validName_no_brace nm h
  have hne : nm ≠ [] := by
    intro h0
    subst h0
    simp [is_valid_variable_name] at h
  have htake : (nm ++ [cbC]).takeWhile (fun c => c != cbC) = nm := by
    rw [takeWhile_append_all _ _ _ hnb]
    simp
  have hdrop : (nm ++ [cbC]).dropWhile (fun c => c != cbC) = [cbC] := by
    rw [dropWhile_append_all _ _ _ hnb]
    simp
  simp only [scanAuxF, if_pos rfl, matchAt, if_pos rfl, takeName, htake, hdrop]
  rw [if_neg hne]
  simp [scanAuxF_nil]

/-- C8 (confirmed).  For any valid name, interpolating the exact string
`${nm}` yields the current environment value verbatim (the empty string
when unset) with the success flag set: the single left-to-right pass
replaces the reference by the stored value and never rescans it, so
`${...}` text inside the value survives untouched. -/
theorem c8_interpolation_round_trip (env : Env) (nm : Str)
    (h : is_valid_variable_name nm = true) :
    replace_variables env (dollarC :: obC :: (nm ++ [cbC])) =
      ((envGet env nm).getD [], true) := by
  have hlen : (dollarC :: obC :: (nm ++ [cbC])).length = nm.length + 3 := by
    simp
  have hscan : scanMatches (dollarC :: obC :: (nm ++ [cbC])) = [(0, nm)] := by
    unfold scanMatches
    rw [hlen]
    exact scan_of_validName nm h (nm.length + 3) 0
  unfold replace_variables
  rw [hscan]
  simp only [applyMatches]
  rw [if_neg (by simp [matchEscaped]), if_pos h]
  have hdropAll : (dollarC :: obC :: (nm ++ [cbC])).drop (0 + nm.length + 3) = [] := by
    rw [Nat.zero_add, ← hlen, List.drop_length]
  simp [applyMatches, hdropAll, sliceStr]

/-- Witness for C8: with `X` bound to the literal text `${Y}` (and `Y`
bound to `zz`), interpolating `${X}` returns the text `${Y}` verbatim,
demonstrating both the round trip and the absence of re-expansion. -/
theorem c8_witness :
    is_valid_variable_name "X".data = true ∧
    replace_variables envC8 (dollarC :: obC :: ("X".data ++ [cbC])) =
      ([dollarC, obC] ++ "Y".data ++ [cbC], true) :=
  ⟨by decide, by rw [c8_interpolation_round_trip envC8 "X".data (by decide)]; decide⟩

/-- `str.replace` is the identity when the pattern does not occur. -/
theorem pyReplaceF_of_not_contains (fuel : Nat) (s pat new : Str)
    (h : containsSub pat s = false) : pyReplaceF fuel s pat new = s := by
  induction fuel generalizing s with
  | zero => rfl
  | succ f ih =>
    match s with
    | [] => rfl
    | c :: rest =>
      simp only [containsSub, Bool.or_eq_false_iff] at h
      simp only [pyReplaceF]
      rw [if_neg fun hc => by simp [h.1] at hc]
      rw [ih rest h.2]

/-- Replacing a pattern by a string no longer than it never lengthens the
result. -/
theorem pyReplaceF_length_le (fuel : Nat) (s pat new : Str)
    (hn : new.length ≤ pat.length) :
    (pyReplaceF fuel s pat new).length ≤ s.length := by
  induction fuel generalizing s with
  | zero => simp [pyReplaceF]
  | succ f ih =>
    match s with
    | [] => simp [pyReplaceF]
    | c :: rest =>
      simp only [pyReplaceF]
      split
      case isTrue hcond =>
        have hple : pat.length ≤ (c :: rest).length :=
          (List.isPrefixOf_iff_prefix.mp hcond.2).length_le
        have hrec := ih ((c :: rest).drop pat.length)
        simp only [List.length_append, List.length_drop, List.length_cons] at *
        omega
      case isFalse =>
        have hrec := ih rest
        simp only [List.length_cons]
        omega

/-- Replacing an occurring pattern by a strictly shorter string strictly
shortens the result (given enough fuel to reach the occurrence). -/
theorem pyReplaceF_length_lt (fuel : Nat) (s pat new : Str)
    (hn : new.length < pat.length) (hc : containsSub pat s = true)
    (hf : s.length ≤ fuel) :
    (pyReplaceF fuel s pat new).length < s.length := by
  induction fuel generalizing s with
  | zero =>
    have hs : s = [] := by
      cases s with
      | nil => rfl
      | cons c rest => simp at hf
    subst hs
    simp only [containsSub] at hc
    have : pat = [] := List.prefix_nil.mp (List.isPrefixOf_iff_prefix.mp hc)
    subst this
    simp at hn
  | succ f ih =>
    match s with
    | [] =>
      simp only [containsSub] at hc
      have : pat = [] := List.prefix_nil.mp (List.isPrefixOf_iff_prefix.mp hc)
      subst this
      simp at hn
    | c :: rest =>
      have hpne : pat ≠ [] := by
        intro h0
        subst h0
        simp at hn
      simp only [pyReplaceF]
      split
      case isTrue hcond =>
        have hple : pat.length ≤ (c :: rest).length :=
          (List.isPrefixOf_iff_prefix.mp hcond.2).length_le
        have hrec := pyReplaceF_length_le f ((c :: rest).drop pat.length) pat new
          (Nat.le_of_lt hn)
        simp only [List.length_append, List.length_drop, List.length_cons] at *
        omega
      case isFalse hcond =>
        have hpre : pat.isPrefixOf (c :: rest) = false := by
          cases hx : pat.isPrefixOf (c :: rest) with
          | false => rfl
          | true => exact absurd ⟨hpne, hx⟩ hcond
        have hcr : containsSub pat rest = true := by
          simp only [containsSub, hpre, Bool.false_or] at hc
          exact hc
        have hfle : rest.length ≤ f := by
          simp only [List.length_cons] at hf
          omega
        have hrec := ih rest hcr hfle
        simp only [List.length_cons]
        omega

/-- C10 (confirmed).  For a non-pipeline line with no backslash-escaped
quote, whenever the shlex pass succeeds the tokenization result is the
raw token list with every literal `__SINGLE_QUOTE__` replaced by `'` and
every literal `__DOUBLE_QUOTE__` replaced by `"` - and any raw token
containing either placeholder is therefore not preserved verbatim. -/
theorem c10_placeholder_rewrite (cmd : Str) (ts : List Str)
    (h1 : containsSub [bsC, sqC] cmd = false)
    (h2 : containsSub [bsC, dqC] cmd = false)
    (hok : shlexCustom cmd = Except.ok ts) :
    custom_split_command cmd = (ts.map postprocess_word, true) ∧
    ∀ t ∈ ts, (containsSub sqPlaceholder t = true ∨ containsSub dqPlaceholder t = true) →
      postprocess_word t ≠ t := by
  have hpre : preprocess_command cmd = cmd := by
    unfold preprocess_command pyReplace
    rw [pyReplaceF_of_not_contains _ _ _ _ h1]
    rw [pyReplaceF_of_not_contains _ _ _ _ h2]
  constructor
  · unfold custom_split_command
    rw [hpre, hok]
  · intro t ht hocc
    have hlt : (postprocess_word t).length < t.length := by
      unfold postprocess_word pyReplace
      by_cases hsq : containsSub sqPlaceholder t = true
      · have l1 := pyReplaceF_length_lt t.length t sqPlaceholder [sqC]
          (by decide) hsq (Nat.le_refl _)
        have l2 := pyReplaceF_length_le (pyReplaceF t.length t sqPlaceholder [sqC]).length
          (pyReplaceF t.length t sqPlaceholder [sqC]) dqPlaceholder [dqC] (by decide)
        omega
      · have hsq' : containsSub sqPlaceholder t = false := by
          cases hx : containsSub sqPlaceholder t with
          | false => rfl
          | true => exact absurd hx hsq
        have hdq : containsSub dqPlaceholder t = true := by
          rcases hocc with h | h
          · exact absurd h hsq
          · exact h
        rw [pyReplaceF_of_not_contains _ _ _ _ hsq']
        exact pyReplaceF_length_lt t.length t dqPlaceholder [dqC]
          (by decide) hdq (Nat.le_refl _)
    intro heq
    rw [heq] at hlt
    exact Nat.lt_irrefl _ hlt

/-- Witness for C10 at the line `echo __SINGLE_QUOTE__`: the placeholder
word is rewritten to a single quote character. -/
theorem c10_witness :
    custom_split_command cmdC10 = (["echo".data, [sqC]], true) := by
  have h := (c10_placeholder_rewrite cmdC10 ["echo".data, sqPlaceholder]
    (by decide) (by decide) rfl).1
  rw [h]
  decide
